import Mathlib

/-!
Shallow embedding of `src/college_lead_scraper.py` (class `CollegeLeadScraper`
and its configuration), covering: the regex-based contact extractors, the
DuckDuckGo redirect unwrapper (with the relevant fragment of CPython's
`urllib.parse`), the faculty-page record extraction with its two strategies
and email-set deduplication, and the `run_workflow` orchestration.

Network effects (`requests.Session.get` wrapped by `_get`, including its
single retry and the truthiness test `if not resp`) are modelled by an
explicit environment of fetch oracles returning `Option`-valued parsed page
data; `time.sleep` delays have no observable effect on returned data and are
omitted.  Python regexes over `str` use Unicode-aware `\w`, `\d`, `\s`,
`\b`; the embedding uses their ASCII fragments, which agree on all ASCII
text (the regexes in the source only ever match ASCII-compatible shapes).
-/

namespace Scraper

/-! ### ASCII character classes -/

/-- ASCII letter (core `Char.isAlpha` is exactly the ASCII check). -/
def isAsciiAlpha (c : Char) : Bool := c.isAlpha

/-- ASCII digit, the `\d` fragment. -/
def isAsciiDigit (c : Char) : Bool := c.isDigit

/-- Word character, the `\w` fragment used by `\b`. -/
def isWordChar (c : Char) : Bool := isAsciiAlpha c || isAsciiDigit c || c == '_'

/-- Whitespace, the `\s` fragment: space, tab, LF, CR, VT, FF. -/
def isPySpace (c : Char) : Bool :=
  c == ' ' || c == '\t' || c == '\n' || c == '\r' || c == '\x0b' || c == '\x0c'

/-! ### A small backtracking regex engine

The source's four regexes are sequences of character-class repetitions,
literals and word-boundary assertions, with no alternation or groups.  A
pattern is transcribed as a list of items; matching follows Python's
backtracking order (greedy repetitions try the longest count first, the
first overall success wins).  The `fuel` argument only bounds recursion
depth so the definitions stay structural; `matchSeq` consumes one pattern
item per level, so `pat.length + 1` fuel is always sufficient, and
`findAllAux` advances through the subject by at least one character per
level, so `s.length + 1` fuel is always sufficient. -/

/-- One regex pattern item: a character class repeated greedily between
`lo` and `hi` times (`none` = unbounded), or a `\b` word-boundary
assertion.  A literal `c` is `cls (· == c) 1 (some 1)`. -/
inductive RItem where
  | cls (p : Char → Bool) (lo : Nat) (hi : Option Nat)
  | wb

/-- Length of the maximal prefix of `s` satisfying `p`. -/
def maxRun (p : Char → Bool) : List Char → Nat
  | [] => 0
  | c :: cs => if p c then maxRun p cs + 1 else 0

/-- `\b`: exactly one side of the current position is a word character
(outside the subject counts as non-word). -/
def atBoundary (prev next : Option Char) : Bool :=
  (match prev with | some c => isWordChar c | none => false)
    != (match next with | some c => isWordChar c | none => false)

/-- First successful result of `f` over `l`, in order. -/
def firstSome {α β : Type} : List α → (α → Option β) → Option β
  | [], _ => none
  | a :: as, f =>
    match f a with
    | some b => some b
    | none => firstSome as f

/-- `[top, top - 1, ..., lo]` — the greedy order of repetition counts. -/
def countsDesc (lo top : Nat) : List Nat :=
  (List.range (top + 1 - lo)).map (fun i => top - i)

/-- Match the pattern items at the start of `s` (with `prev` the character
just before `s`, for `\b`), returning the consumed characters of the first
match in backtracking order. -/
def matchSeq : Nat → List RItem → Option Char → List Char → Option (List Char)
  | 0, _, _, _ => none
  | _ + 1, [], _, _ => some []
  | fuel + 1, .wb :: rest, prev, s =>
    if atBoundary prev s.head? then matchSeq fuel rest prev s else none
  | fuel + 1, .cls p lo hi :: rest, prev, s =>
    let mr := maxRun p s
    let top := match hi with | some h => min h mr | none => mr
    if top < lo then none
    else
      firstSome (countsDesc lo top) (fun k =>
        let taken := s.take k
        let prev2 := if k == 0 then prev else taken.getLast?
        match matchSeq fuel rest prev2 (s.drop k) with
        | some cs => some (taken ++ cs)
        | none => none)

/-- `re.findall` scan: try a match at each position left to right; on a
(nonempty) match continue right after it, otherwise advance one character. -/
def findAllAux : Nat → List RItem → Option Char → List Char → List (List Char)
  | 0, _, _, _ => []
  | fuel + 1, pat, prev, s =>
    match matchSeq (pat.length + 1) pat prev s with
    | some [] =>
      match s with
      | [] => []
      | c :: cs => findAllAux fuel pat (some c) cs
    | some m => m :: findAllAux fuel pat m.getLast? (s.drop m.length)
    | none =>
      match s with
      | [] => []
      | c :: cs => findAllAux fuel pat (some c) cs

/-- All (nonempty) matches of `pat` in `text`, in order. -/
def reFindAll (pat : List RItem) (text : String) : List String :=
  (findAllAux (text.data.length + 1) pat none text.data).map (fun cs => String.mk cs)

/-! ### The text extractors (`extract_emails`, `extract_phones`) -/

/-- `\b[A-Za-z0-9._%+-]+@[A-Za-z0-9.-]+\.[A-Za-z]{2,}\b` -/
def emailRegex : List RItem :=
  [ .wb,
    .cls (fun c => isAsciiAlpha c || isAsciiDigit c || c == '.' || c == '_' ||
      c == '%' || c == '+' || c == '-') 1 none,
    .cls (fun c => c == '@') 1 (some 1),
    .cls (fun c => isAsciiAlpha c || isAsciiDigit c || c == '.' || c == '-') 1 none,
    .cls (fun c => c == '.') 1 (some 1),
    .cls isAsciiAlpha 2 none,
    .wb ]

/-- The class `[-.\s]`. -/
def sepCls (c : Char) : Bool := c == '-' || c == '.' || isPySpace c

/-- `\+?91[-.\s]?\d{10}` -/
def phoneRegex1 : List RItem :=
  [ .cls (fun c => c == '+') 0 (some 1),
    .cls (fun c => c == '9') 1 (some 1),
    .cls (fun c => c == '1') 1 (some 1),
    .cls sepCls 0 (some 1),
    .cls isAsciiDigit 10 (some 10) ]

/-- `\+?\d{1,3}[-.\s]?\(?\d{3}\)?[-.\s]?\d{3}[-.\s]?\d{4}` -/
def phoneRegex2 : List RItem :=
  [ .cls (fun c => c == '+') 0 (some 1),
    .cls isAsciiDigit 1 (some 3),
    .cls sepCls 0 (some 1),
    .cls (fun c => c == '(') 0 (some 1),
    .cls isAsciiDigit 3 (some 3),
    .cls (fun c => c == ')') 0 (some 1),
    .cls sepCls 0 (some 1),
    .cls isAsciiDigit 3 (some 3),
    .cls sepCls 0 (some 1),
    .cls isAsciiDigit 4 (some 4) ]

/-- `\d{3}[-.\s]?\d{3}[-.\s]?\d{4}` -/
def phoneRegex3 : List RItem :=
  [ .cls isAsciiDigit 3 (some 3),
    .cls sepCls 0 (some 1),
    .cls isAsciiDigit 3 (some 3),
    .cls sepCls 0 (some 1),
    .cls isAsciiDigit 4 (some 4) ]

/-- Code-point lexicographic comparison of character lists, the order
Python's `sorted` uses on `str`. -/
def charListLe : List Char → List Char → Bool
  | [], _ => true
  | _ :: _, [] => false
  | a :: as, b :: bs =>
    if a.toNat < b.toNat then true
    else if b.toNat < a.toNat then false
    else charListLe as bs

/-- Python's `<=` on strings. -/
def strLe (a b : String) : Bool := charListLe a.data b.data

/-- `strLe` as a relation, for use with `List.insertionSort`. -/
def pyLe (a b : String) : Prop := strLe a b = true

instance : DecidableRel pyLe := fun a b =>
  inferInstanceAs (Decidable (strLe a b = true))

theorem charListLe_total : ∀ a b : List Char,
    charListLe a b = true ∨ charListLe b a = true := by
  intro a
  induction a with
  | nil => intro b; left; rfl
  | cons x xs ih =>
    intro b
    cases b with
    | nil => right; rfl
    | cons y ys =>
      simp only [charListLe]
      rcases Nat.lt_trichotomy x.toNat y.toNat with hxy | hxy | hxy
      · left; simp [hxy]
      · rcases ih ys with h | h
        · left; simp [hxy, h, Nat.lt_irrefl]
        · right; simp [hxy, h, Nat.lt_irrefl]
      · right; simp [hxy]

theorem charListLe_trans : ∀ a b c : List Char,
    charListLe a b = true → charListLe b c = true → charListLe a c = true := by
  intro a
  induction a with
  | nil => intro b c _ _; rfl
  | cons x xs ih =>
    intro b c hab hbc
    cases b with
    | nil => simp [charListLe] at hab
    | cons y ys =>
      cases c with
      | nil => simp [charListLe] at hbc
      | cons z zs =>
        simp only [charListLe] at hab hbc ⊢
        rcases Nat.lt_trichotomy x.toNat y.toNat with hxy | hxy | hxy <;>
          rcases Nat.lt_trichotomy y.toNat z.toNat with hyz | hyz | hyz
        · simp [show x.toNat < z.toNat by omega]
        · simp [show x.toNat < z.toNat by omega]
        · simp [show ¬ y.toNat < z.toNat by omega, hyz] at hbc
        · simp [show x.toNat < z.toNat by omega]
        · have h1 := hab
          rw [if_neg (by omega), if_neg (by omega)] at h1
          have h2 := hbc
          rw [if_neg (by omega), if_neg (by omega)] at h2
          rw [if_neg (by omega), if_neg (by omega)]
          exact ih ys zs h1 h2
        · simp [show ¬ y.toNat < z.toNat by omega, hyz] at hbc
        · simp [show ¬ x.toNat < y.toNat by omega, hxy] at hab
        · simp [show ¬ x.toNat < y.toNat by omega, hxy] at hab
        · simp [show ¬ x.toNat < y.toNat by omega, hxy] at hab

instance : IsTotal String pyLe := ⟨fun a b => charListLe_total a.data b.data⟩

instance : IsTrans String pyLe := ⟨fun a b c => charListLe_trans a.data b.data c.data⟩

/-- Python `sorted(set(xs))` on strings: the distinct elements in
lexicographic (code-point) order. -/
def pySortedSet (xs : List String) : List String :=
  (xs.dedup).insertionSort pyLe

/-- Python `str.strip()` (ASCII whitespace fragment). -/
def pyStrip (s : String) : String :=
  String.mk (((s.data.dropWhile isPySpace).reverse.dropWhile isPySpace).reverse)

/-- `extract_emails`: `sorted(set(re.findall(email_pattern, text)))`. -/
def extract_emails (text : String) : List String :=
  pySortedSet (reFindAll emailRegex text)

/-- `extract_phones`: findall of the three phone patterns in sequence, then
`sorted(set(p.strip() for p in phones if p.strip()))`. -/
def extract_phones (text : String) : List String :=
  let phones := reFindAll phoneRegex1 text ++ reFindAll phoneRegex2 text ++
    reFindAll phoneRegex3 text
  pySortedSet ((phones.map pyStrip).filter (fun p => p ≠ ""))

/-! ### Basic facts about `pySortedSet` -/

theorem pySortedSet_sorted (xs : List String) :
    List.Sorted pyLe (pySortedSet xs) :=
  List.sorted_insertionSort _ _

theorem pySortedSet_nodup (xs : List String) : (pySortedSet xs).Nodup :=
  ((List.perm_insertionSort _ _).nodup_iff).mpr (List.nodup_dedup xs)

theorem mem_pySortedSet {a : String} {xs : List String} :
    a ∈ pySortedSet xs ↔ a ∈ xs := by
  unfold pySortedSet
  rw [(List.perm_insertionSort _ _).mem_iff, List.mem_dedup]

/-! ### The fragment of CPython `urllib.parse` used by the unwrapper

`_unwrap_duckduckgo_redirect` calls `urlparse`, `parse_qs` and (inside
`parse_qs`) `unquote` with `+`-to-space replacement.  The embedding follows
CPython (3.11-line) `urlsplit`: leading C0-control-or-space characters are stripped and the
control characters `\t\r\n` removed everywhere; the scheme, `//`
netloc, fragment and query are split off in that order; mismatched square
brackets in the netloc raise `ValueError`, modelled as `none` (the source
catches the exception and falls back to the original href).  Further
bracketed-host (IPv6) validation, and multi-byte UTF-8 percent-escape
decoding (the embedding decodes each `%XX` bytewise), are not modelled;
both agree on all ASCII inputs with ASCII destinations. -/

/-- Substring test, Python's `sub in s`. -/
def containsSub (pat : List Char) : List Char → Bool
  | [] => pat.isEmpty
  | c :: t => pat.isPrefixOf (c :: t) || containsSub pat t

/-- Python `sub in s` on `String`. -/
def strHas (pat s : String) : Bool := containsSub pat.data s.data

/-- Python `s.lower()` (ASCII fragment; `Char.toLower` lowers exactly
`A`-`Z`). -/
def pyLower (s : String) : String := String.mk (s.data.map Char.toLower)

/-- Python `s.startswith(pre)`. -/
def strStarts (s pre : String) : Bool := pre.data.isPrefixOf s.data

/-- Python `s.endswith(suf)`. -/
def strEnds (s suf : String) : Bool := suf.data.isSuffixOf s.data

/-- Split at the first occurrence of `sep` (removed); `none` if absent. -/
def splitFirst (sep : Char) : List Char → Option (List Char × List Char)
  | [] => none
  | c :: cs =>
    if c == sep then some ([], cs)
    else
      match splitFirst sep cs with
      | some (a, b) => some (c :: a, b)
      | none => none

/-- Scheme characters: letters, digits, `+`, `-`, `.`. -/
def schemeChar (c : Char) : Bool :=
  isAsciiAlpha c || isAsciiDigit c || c == '+' || c == '-' || c == '.'

/-- C0 control or space (code point at most 32). -/
def isC0OrSpace (c : Char) : Bool := c.toNat ≤ 32

/-- The result of `urlparse` (the fields the source reads, plus params). -/
structure UrlParts where
  scheme : String
  netloc : String
  path : String
  query : String
  fragment : String
deriving DecidableEq, Repr

/-- CPython `urlsplit`.  Returns `none` where CPython raises `ValueError`
(mismatched brackets in the netloc). -/
def pyUrlsplit (url : String) : Option UrlParts :=
  let u0 := (url.data.dropWhile isC0OrSpace).filter
    (fun c => !(c == '\t' || c == '\r' || c == '\n'))
  let schemeRest : String × List Char :=
    match splitFirst ':' u0 with
    | some (before, after) =>
      match before with
      | [] => ("", u0)
      | c :: restc =>
        if isAsciiAlpha c && restc.all schemeChar then
          (String.mk ((c :: restc).map Char.toLower), after)
        else ("", u0)
    | none => ("", u0)
  let scheme := schemeRest.1
  let u1 := schemeRest.2
  let netlocRest : List Char × List Char :=
    match u1 with
    | '/' :: '/' :: rest =>
      let nl := rest.takeWhile (fun c => !(c == '/' || c == '?' || c == '#'))
      (nl, rest.drop nl.length)
    | _ => ([], u1)
  let netloc := netlocRest.1
  let u2 := netlocRest.2
  if (netloc.contains '[') != (netloc.contains ']') then none
  else
    let pathFrag : List Char × List Char :=
      match splitFirst '#' u2 with
      | some (a, b) => (a, b)
      | none => (u2, [])
    let pathQuery : List Char × List Char :=
      match splitFirst '?' pathFrag.1 with
      | some (a, b) => (a, b)
      | none => (pathFrag.1, [])
    some { scheme := scheme, netloc := String.mk netloc,
           path := String.mk pathQuery.1, query := String.mk pathQuery.2,
           fragment := String.mk pathFrag.2 }

/-- CPython `_splitparams`: split `;params` off the last path segment. -/
def pySplitParams (p : List Char) : List Char × List Char :=
  if p.contains '/' then
    let r := (p.reverse.takeWhile (fun c => c != '/')).reverse
    let base := p.take (p.length - r.length)
    match splitFirst ';' r with
    | some (a, b) => (base ++ a, b)
    | none => (p, [])
  else
    match splitFirst ';' p with
    | some (a, b) => (a, b)
    | none => (p, [])

/-- CPython `urlparse`: `urlsplit` plus params split off the path. -/
def pyUrlparse (href : String) : Option UrlParts :=
  (pyUrlsplit href).map (fun u =>
    if u.path.data.contains ';' then
      { u with path := String.mk (pySplitParams u.path.data).1 }
    else u)

/-- Hexadecimal digit value. -/
def hexVal (c : Char) : Option Nat :=
  if isAsciiDigit c then some (c.toNat - '0'.toNat)
  else if 'a' ≤ c ∧ c ≤ 'f' then some (c.toNat - 'a'.toNat + 10)
  else if 'A' ≤ c ∧ c ≤ 'F' then some (c.toNat - 'A'.toNat + 10)
  else none

/-- One segment following a `%`: decode a leading hex pair, or restore the
`%` verbatim when the escape is invalid. -/
def unquoteSeg (seg : List Char) : List Char :=
  match seg with
  | a :: b :: rest =>
    (match hexVal a, hexVal b with
     | some x, some y => Char.ofNat (16 * x + y) :: rest
     | _, _ => '%' :: seg)
  | _ => '%' :: seg

/-- CPython `unquote` splits the string on `%` and decodes each following
segment's leading hex pair. -/
def unquoteAux (s : List Char) : List Char :=
  match s.splitOn '%' with
  | [] => []
  | h :: t => h ++ (t.map unquoteSeg).flatten

/-- `unquote(s.replace('+', ' '))`, as `parse_qsl` applies to each field. -/
def unquotePlus (s : List Char) : String :=
  String.mk (unquoteAux (s.map (fun c => if c == '+' then ' ' else c)))

/-- CPython `parse_qsl` with default arguments: split on `&`, keep only
fields with a `=` and a nonempty raw value, decode names and values. -/
def parseQsl (qs : String) : List (String × String) :=
  (qs.data.splitOn '&').filterMap (fun nv =>
    if nv = [] then none
    else
      match splitFirst '=' nv with
      | none => none
      | some (n, v) =>
        if v = [] then none
        else some (unquotePlus n, unquotePlus v))

/-- `parse_qs(q)["uddg"][0]`: the first value bound to `key`, if any. -/
def qsFirst (pairs : List (String × String)) (key : String) : Option String :=
  (pairs.find? (fun p => p.1 == key)).map Prod.snd

/-- `_unwrap_duckduckgo_redirect`: decode the `uddg` parameter of a
DuckDuckGo `/l/` redirect link, returning the href unchanged in every other
case (including when `urlparse` raises). -/
def unwrap_duckduckgo_redirect (href : String) : String :=
  match pyUrlparse href with
  | none => href
  | some u =>
    if strEnds u.netloc "duckduckgo.com" && strStarts u.path "/l/" then
      match qsFirst (parseQsl u.query) "uddg" with
      | some v => v
      | none => href
    else href

/-! ### Data model and fetch environment

The scraper's network layer is `_get`, which returns a `requests.Response`
or `None` after a failed retry; every caller immediately tests `if not
resp` (also false for an HTTP error status) and then parses the body with
BeautifulSoup.  The environment below abstracts, per caller, "`_get`
succeeded with a truthy response whose parsed body contains these data":
`none` models `_get` returning `None` or a falsy response.  `urljoin`
(`urllib.parse.urljoin`, used only to absolutise candidate faculty-page
links) is carried as an opaque function in the environment: no claim
depends on its arithmetic. -/

/-- An `<a href=...>` element: its visible text and href attribute. -/
structure Anchor where
  text : String
  href : String
deriving DecidableEq, Repr

/-- A fetched homepage: full visible text and all anchors with an href. -/
structure Homepage where
  text : String
  anchors : List Anchor
deriving DecidableEq, Repr

/-- A `<tr>`: the texts of its `td`/`th` cells (`get_text(" ", strip=True)`). -/
structure TableRow where
  cells : List String
deriving DecidableEq, Repr

/-- A `<table>`: its rows. -/
structure HtmlTable where
  rows : List TableRow
deriving DecidableEq, Repr

/-- A `div`/`section`/`article` element with a class attribute: the class
string, the element text (`get_text(" ", strip=True)`), and the text of the
first `h2`/`h3`/`h4`/`strong`/`b` descendant when one exists. -/
structure SectionBlock where
  classAttr : String
  text : String
  headText : Option String
deriving DecidableEq, Repr

/-- A fetched faculty page, as the two strategies read it. -/
structure FacultyPage where
  tables : List HtmlTable
  sections : List SectionBlock
deriving DecidableEq, Repr

/-- Fetch oracles for one workflow run.  `searchHref url` is the DuckDuckGo
result page for `url`: `none` = fetch failed/falsy, `some none` = no
`a.result__a` anchor, `some (some h)` = first such anchor's href (`""` when
the attribute is missing, matching `result.get("href") or ""`).
`linkedinHrefs url` lists the hrefs of all `a.result__a` anchors. -/
structure Env where
  searchHref : String → Option (Option String)
  homepage : String → Option Homepage
  facultyPage : String → Option FacultyPage
  linkedinHrefs : String → Option (List String)
  urljoin : String → String → String

/-- `ScrapeConfig`.  `request_timeout_s`, `polite_delay_s` and `user_agent`
only affect timing and headers, with no effect on returned data; the page
and record budgets are Python ints, so `Int` (the API caller clamps only
from above). -/
structure ScrapeConfig where
  request_timeout_s : Int := 10
  max_faculty_pages : Int := 2
  max_faculty_per_page : Int := 8
  include_linkedin : Bool := false
  polite_delay_s : Rat := 0
  user_agent : String :=
    "Mozilla/5.0 (Windows NT 10.0; Win64; x64) AppleWebKit/537.36 (KHTML, like Gecko) Chrome/120.0.0.0 Safari/537.36"

/-- One faculty record dict as built by `scrape_faculty_page`
(`linkedin_profiles` is added later by `run_workflow` when enabled). -/
structure PRecord where
  name : String
  emails : List String
  source : String
  text : String
  page : String
  linkedin_profiles : Option (List String) := none
deriving DecidableEq, Repr

/-- The dict built by `scrape_college_info`. -/
structure CollegeData where
  website : String
  emails : List String
  phones : List String
  faculty_pages : List String
deriving DecidableEq, Repr

/-- The `run_workflow` result dict; `meta` is the echoed config plus the
optional `"error"` key. -/
structure WorkflowResult where
  college_name : String
  college_website : Option String
  contact_emails : List String
  contact_phones : List String
  faculty_members : List PRecord
  meta_config : ScrapeConfig
  meta_error : Option String

/-- Python `lst[:k]` for an `Int` bound: a negative bound drops `-k`
elements from the end. -/
def pyTake {α : Type} (k : Int) (l : List α) : List α :=
  if 0 ≤ k then l.take k.toNat else l.take (l.length - (-k).toNat)

/-! ### `search_college_website` and `scrape_college_info` -/

/-- `query.replace(" ", "+")` prefixed by the DuckDuckGo HTML endpoint. -/
def searchUrlFor (query : String) : String :=
  "https://html.duckduckgo.com/html/?q=" ++
    String.mk (query.data.map (fun c => if c == ' ' then '+' else c))

/-- `search_college_website`: fetch the search page for
`"{college_name} official website"`, take the first organic result href,
unwrap it, and keep it only when it is an absolute http(s) URL. -/
def search_college_website (env : Env) (college_name : String) : Option String :=
  match env.searchHref (searchUrlFor (college_name ++ " official website")) with
  | none => none
  | some none => none
  | some (some href0) =>
    let href := unwrap_duckduckgo_redirect href0
    if strStarts href "http://" || strStarts href "https://" then some href else none

/-- The keyword set marking a link as a candidate faculty page. -/
def faculty_keywords : List String :=
  ["faculty", "staff", "professor", "teachers", "department", "people", "directory"]

/-- The anchor scan of `scrape_college_info`: keep anchors whose lowercased
text or href contains a keyword, absolutise against the homepage URL, and
deduplicate preserving first-seen order. -/
def collectFacultyPages (env : Env) (website : String) (anchors : List Anchor) :
    List String :=
  anchors.foldl (fun pages link =>
    if faculty_keywords.any (fun k =>
        strHas k (pyLower link.text) || strHas k (pyLower link.href)) then
      let full := env.urljoin website link.href
      if pages.contains full then pages else pages ++ [full]
    else pages) []

/-- `scrape_college_info`: on fetch failure the defaults survive; otherwise
extract contacts from the page text and collect candidate faculty pages. -/
def scrape_college_info (env : Env) (website : String) : CollegeData :=
  match env.homepage website with
  | none => { website := website, emails := [], phones := [], faculty_pages := [] }
  | some hp =>
    { website := website,
      emails := extract_emails hp.text,
      phones := extract_phones hp.text,
      faculty_pages := collectFacultyPages env website hp.anchors }

/-! ### `scrape_faculty_page` -/

/-- `_guess_name_from_row`: the first cell's text if truthy and containing
a letter, else `"Unknown"`. -/
def guess_name_from_row (cells : List String) : String :=
  let first := match cells with | [] => "" | c :: _ => c
  if first ≠ "" ∧ first.data.any isAsciiAlpha then first else "Unknown"

/-- The loop body of strategy 1: a row with at least two cells whose
joined text contains an email yields a `source = "table"` record. -/
def rowRecord (faculty_url : String) (row : TableRow) : Option PRecord :=
  if row.cells.length < 2 then none
  else
    let row_text := String.intercalate " " row.cells
    let row_emails := extract_emails row_text
    if row_emails.isEmpty then none
    else some { name := guess_name_from_row row.cells, emails := row_emails,
                source := "table", text := row_text, page := faculty_url }

/-- Strategy 1 (tables): the emitted records over all tables and rows. -/
def tableRecords (faculty_url : String) (pg : FacultyPage) : List PRecord :=
  pg.tables.flatMap (fun t => t.rows.filterMap (rowRecord faculty_url))

/-- `re.compile(r"faculty|staff|profile|member", re.I)` applied to a class
attribute: case-insensitive substring search. -/
def classKeywordMatch (classAttr : String) : Bool :=
  strHas "faculty" (pyLower classAttr) || strHas "staff" (pyLower classAttr) ||
    strHas "profile" (pyLower classAttr) || strHas "member" (pyLower classAttr)

/-- The loop body of strategy 2: a block whose text contains an email
yields a `source = "section"` record with a 300-character excerpt. -/
def sectionRecord (faculty_url : String) (s : SectionBlock) : Option PRecord :=
  let section_emails := extract_emails s.text
  if section_emails.isEmpty then none
  else some { name := match s.headText with | some t => t | none => "Unknown",
              emails := section_emails, source := "section",
              text := String.mk (s.text.data.take 300), page := faculty_url }

/-- Strategy 2 (profile-like blocks): every `div`/`section`/`article`
whose class matches the pattern is fed to the loop body. -/
def sectionRecords (faculty_url : String) (pg : FacultyPage) : List PRecord :=
  (pg.sections.filter (fun s => classKeywordMatch s.classAttr)).filterMap
    (sectionRecord faculty_url)

/-- Both strategies' records in concatenation order, before deduplication. -/
def facultyCandidates (faculty_url : String) (pg : FacultyPage) : List PRecord :=
  tableRecords faculty_url pg ++ sectionRecords faculty_url pg

/-- The deduplication key: `",".join(sorted(item["emails"]))`. -/
def recKey (r : PRecord) : String :=
  String.intercalate "," (r.emails.insertionSort pyLe)

/-- The dedup loop: keep a record when its key is nonempty and unseen. -/
def dedupGo : List String → List PRecord → List PRecord
  | _, [] => []
  | seen, it :: rest =>
    if recKey it ≠ "" ∧ recKey it ∉ seen then it :: dedupGo (recKey it :: seen) rest
    else dedupGo seen rest

/-- De-dup by email-set key, first record kept. -/
def dedupByEmailKey (items : List PRecord) : List PRecord := dedupGo [] items

/-- `scrape_faculty_page`: empty on fetch failure, otherwise both
strategies concatenated and deduplicated by email set. -/
def scrape_faculty_page (env : Env) (faculty_url : String) : List PRecord :=
  match env.facultyPage faculty_url with
  | none => []
  | some pg => dedupByEmailKey (facultyCandidates faculty_url pg)

/-! ### `search_linkedin` and `run_workflow` -/

/-- `search_linkedin`: unwrap every organic result href, keep those
containing `linkedin.com`, first five. -/
def search_linkedin (env : Env) (name college_name : String) : List String :=
  match env.linkedinHrefs (searchUrlFor (name ++ " " ++ college_name ++ " site:linkedin.com")) with
  | none => []
  | some hrefs =>
    (((hrefs.map unwrap_duckduckgo_redirect).filter
      (fun h => strHas "linkedin.com" h))).take 5

/-- The LinkedIn pass over one page's records: a record whose (or-defaulted)
name is not `"Unknown"` gets `linkedin_profiles` attached. -/
def attachLinkedin (env : Env) (college_name : String) (f : PRecord) : PRecord :=
  let name := if f.name = "" then "Unknown" else f.name
  if name ≠ "Unknown" then
    { f with linkedin_profiles := some (search_linkedin env name college_name) }
  else f

/-- `run_workflow`. -/
def run_workflow (env : Env) (cfg : ScrapeConfig) (college_name : String) :
    WorkflowResult :=
  match search_college_website env college_name with
  | none =>
    { college_name := college_name, college_website := none,
      contact_emails := [], contact_phones := [], faculty_members := [],
      meta_config := cfg, meta_error := some "website_not_found" }
  | some website =>
    let cd := scrape_college_info env website
    let pages := pyTake cfg.max_faculty_pages cd.faculty_pages
    let fac := pages.flatMap (fun page =>
      let faculty_list := pyTake cfg.max_faculty_per_page (scrape_faculty_page env page)
      if cfg.include_linkedin then faculty_list.map (attachLinkedin env college_name)
      else faculty_list)
    { college_name := college_name, college_website := some website,
      contact_emails := cd.emails, contact_phones := cd.phones,
      faculty_members := fac, meta_config := cfg, meta_error := none }

/-! ### Helper lemmas -/

theorem rowRecord_spec {faculty_url : String} {row : TableRow} {r : PRecord}
    (h : rowRecord faculty_url row = some r) :
    r.emails ≠ [] ∧ r.source = "table" := by
  simp only [rowRecord] at h
  split at h
  · exact absurd h (by simp)
  · split at h
    · exact absurd h (by simp)
    · rename_i hne
      obtain rfl := Option.some.inj h
      refine ⟨fun hnil => hne ?_, rfl⟩
      have hx : extract_emails (String.intercalate " " row.cells) = [] := hnil
      rw [hx]
      rfl

theorem sectionRecord_spec {faculty_url : String} {s : SectionBlock} {r : PRecord}
    (h : sectionRecord faculty_url s = some r) :
    r.emails ≠ [] ∧ r.source = "section" := by
  simp only [sectionRecord] at h
  split at h
  · exact absurd h (by simp)
  · rename_i hne
    obtain rfl := Option.some.inj h
    refine ⟨fun hnil => hne ?_, rfl⟩
    have hx : extract_emails s.text = [] := hnil
    rw [hx]
    rfl

theorem facultyCandidates_spec {faculty_url : String} {pg : FacultyPage} {r : PRecord}
    (h : r ∈ facultyCandidates faculty_url pg) :
    r.emails ≠ [] ∧ (r.source = "table" ∨ r.source = "section") := by
  rcases List.mem_append.mp h with hl | hr
  · simp only [tableRecords, List.mem_flatMap] at hl
    obtain ⟨t, _, hmem⟩ := hl
    obtain ⟨row, _, heq⟩ := List.mem_filterMap.mp hmem
    exact ⟨(rowRecord_spec heq).1, Or.inl (rowRecord_spec heq).2⟩
  · obtain ⟨s, _, heq⟩ := List.mem_filterMap.mp hr
    exact ⟨(sectionRecord_spec heq).1, Or.inr (sectionRecord_spec heq).2⟩

theorem dedupGo_subset : ∀ (items : List PRecord) (seen : List String) (r : PRecord),
    r ∈ dedupGo seen items → r ∈ items := by
  intro items
  induction items with
  | nil => intro seen r h; simp [dedupGo] at h
  | cons it rest ih =>
    intro seen r h
    simp only [dedupGo] at h
    split at h
    · rcases List.mem_cons.mp h with h1 | h2
      · exact List.mem_cons.mpr (Or.inl h1)
      · exact List.mem_cons.mpr (Or.inr (ih _ _ h2))
    · exact List.mem_cons.mpr (Or.inr (ih _ _ h))

theorem dedupGo_first : ∀ (items : List PRecord) (seen : List String) (r : PRecord),
    r ∈ dedupGo seen items →
      recKey r ≠ "" ∧ recKey r ∉ seen ∧
        items.find? (fun x => recKey x == recKey r) = some r := by
  intro items
  induction items with
  | nil => intro seen r h; simp [dedupGo] at h
  | cons it rest ih =>
    intro seen r h
    simp only [dedupGo] at h
    split at h
    · rename_i hc
      rcases List.mem_cons.mp h with h1 | h2
      · subst h1
        exact ⟨hc.1, hc.2, by simp [List.find?_cons_of_pos]⟩
      · obtain ⟨hne, hnotin, hfind⟩ := ih _ _ h2
        have hkey : recKey it ≠ recKey r := by
          intro e
          exact hnotin (by rw [e]; exact List.mem_cons_self _ _)
        refine ⟨hne, fun hs => hnotin (List.mem_cons_of_mem _ hs), ?_⟩
        rw [List.find?_cons_of_neg, hfind]
        simp [hkey]
    · rename_i hc
      obtain ⟨hne, hnotin, hfind⟩ := ih _ _ h
      have hkey : recKey it ≠ recKey r := by
        rcases not_and_or.mp hc with h0 | h0
        · rw [not_not] at h0
          intro e; exact hne (e.symm.trans h0)
        · rw [not_not] at h0
          intro e; exact hnotin (e ▸ h0)
      refine ⟨hne, hnotin, ?_⟩
      rw [List.find?_cons_of_neg, hfind]
      simp [hkey]

theorem dedupGo_complete : ∀ (items : List PRecord) (seen : List String) (c : PRecord),
    c ∈ items → recKey c ≠ "" → recKey c ∉ seen →
      ∃ r ∈ dedupGo seen items, recKey r = recKey c := by
  intro items
  induction items with
  | nil => intro seen c h; simp at h
  | cons it rest ih =>
    intro seen c hmem hne hnotin
    simp only [dedupGo]
    split
    · rename_i hc
      by_cases hkey : recKey it = recKey c
      · exact ⟨it, List.mem_cons_self _ _, hkey⟩
      · rcases List.mem_cons.mp hmem with h1 | h2
        · exact absurd (by rw [h1]) hkey
        · have hnotin2 : recKey c ∉ recKey it :: seen := by
            intro hm
            rcases List.mem_cons.mp hm with he | hs
            · exact hkey he.symm
            · exact hnotin hs
          obtain ⟨r, hr, hrk⟩ := ih (recKey it :: seen) c h2 hne hnotin2
          exact ⟨r, List.mem_cons.mpr (Or.inr hr), hrk⟩
    · rename_i hc
      rcases List.mem_cons.mp hmem with h1 | h2
      · exfalso
        rcases not_and_or.mp hc with h0 | h0
        · rw [not_not] at h0
          exact hne (by rw [h1]; exact h0)
        · rw [not_not] at h0
          exact hnotin (by rw [h1]; exact h0)
      · exact ih seen c h2 hne hnotin

theorem length_flatMap_le {α β : Type} (l : List α) (f : α → List β) (B : Nat)
    (h : ∀ a, (f a).length ≤ B) : (l.flatMap f).length ≤ l.length * B := by
  induction l with
  | nil => simp
  | cons a t ih =>
    rw [List.flatMap_cons, List.length_append, List.length_cons, Nat.succ_mul]
    have ha := h a
    omega

theorem pyTake_nil {α : Type} (k : Int) : pyTake k ([] : List α) = [] := by
  simp [pyTake]

theorem length_pyTake_le {α : Type} (k : Int) (hk : 0 ≤ k) (l : List α) :
    (pyTake k l).length ≤ k.toNat := by
  simp only [pyTake, if_pos hk, List.length_take]
  exact Nat.min_le_left _ _

/-! ### Concrete environments and pages used to instantiate the theorems -/

/-- An environment in which every fetch fails. -/
def envNoNet : Env where
  searchHref := fun _ => none
  homepage := fun _ => none
  facultyPage := fun _ => none
  linkedinHrefs := fun _ => none
  urljoin := fun _ h => h

/-- A faculty page with one qualifying table row and one qualifying
profile block carrying the same email. -/
def pgA : FacultyPage where
  tables := [{ rows := [{ cells := ["Dr. A", "a@x.edu"] }] }]
  sections := [{ classAttr := "faculty-card", text := "Dr. A a@x.edu dean", headText := some "Dr. A" }]

/-- An environment in which resolution succeeds, the homepage has one
candidate faculty link, and the faculty page is `pgA`. -/
def envSite : Env where
  searchHref := fun _ => some (some "https://x.edu")
  homepage := fun _ => some { text := "write to faculty@x.edu", anchors := [{ text := "Faculty", href := "https://x.edu/faculty" }] }
  facultyPage := fun _ => some pgA
  linkedinHrefs := fun _ => none
  urljoin := fun _ h => h

/-- An environment in which resolution succeeds but every later fetch
fails. -/
def envSiteDown : Env where
  searchHref := fun _ => some (some "https://x.edu")
  homepage := fun _ => none
  facultyPage := fun _ => none
  linkedinHrefs := fun _ => none
  urljoin := fun _ h => h

/-- The record the tabular strategy produces from `pgA`. -/
def recA : PRecord where
  name := "Dr. A"
  emails := ["a@x.edu"]
  source := "table"
  text := "Dr. A a@x.edu"
  page := "https://x.edu/faculty"

/-- The record the profile-block strategy produces from `pgA`. -/
def recB : PRecord where
  name := "Dr. A"
  emails := ["a@x.edu"]
  source := "section"
  text := "Dr. A a@x.edu dean"
  page := "https://x.edu/faculty"

/-! ### Claims about `run_workflow` -/

/-- Claim C1: when the website resolver returns no website, `run_workflow`
returns a well-formed result with a null website, the
`"website_not_found"` error tag, and empty contacts and faculty list. -/
theorem run_workflow_website_not_found (env : Env) (cfg : ScrapeConfig)
    (name : String) (h : search_college_website env name = none) :
    (run_workflow env cfg name).college_website = none ∧
    (run_workflow env cfg name).meta_error = some "website_not_found" ∧
    (run_workflow env cfg name).contact_emails = [] ∧
    (run_workflow env cfg name).contact_phones = [] ∧
    (run_workflow env cfg name).faculty_members = [] ∧
    (run_workflow env cfg name).college_name = name := by
  simp [run_workflow, h]

theorem run_workflow_website_not_found_witness :
    (run_workflow envNoNet {} "Test College").college_website = none ∧
    (run_workflow envNoNet {} "Test College").meta_error = some "website_not_found" ∧
    (run_workflow envNoNet {} "Test College").contact_emails = [] ∧
    (run_workflow envNoNet {} "Test College").contact_phones = [] ∧
    (run_workflow envNoNet {} "Test College").faculty_members = [] ∧
    (run_workflow envNoNet {} "Test College").college_name = "Test College" :=
  run_workflow_website_not_found envNoNet {} "Test College" rfl

/-- Claim C8: with `max_faculty_pages = 0` the workflow returns an empty
`faculty_members` list, whatever candidate pages exist. -/
theorem run_workflow_zero_pages (env : Env) (cfg : ScrapeConfig) (name : String)
    (h : cfg.max_faculty_pages = 0) :
    (run_workflow env cfg name).faculty_members = [] := by
  cases hs : search_college_website env name with
  | none => simp [run_workflow, hs]
  | some w => simp [run_workflow, hs, h, pyTake]

theorem run_workflow_zero_pages_witness :
    (scrape_college_info envSite "https://x.edu").faculty_pages ≠ [] ∧
    (run_workflow envSite { max_faculty_pages := 0 } "X College").faculty_members = [] :=
  ⟨by decide, run_workflow_zero_pages envSite { max_faculty_pages := 0 } "X College" rfl⟩

/-- Claim C9: with non-negative budgets `P` pages and `R` records per
page, the accumulated `faculty_members` list has length at most `P * R`. -/
theorem run_workflow_budget (env : Env) (cfg : ScrapeConfig) (name : String)
    (hp : 0 ≤ cfg.max_faculty_pages) (hr : 0 ≤ cfg.max_faculty_per_page) :
    (run_workflow env cfg name).faculty_members.length ≤
      cfg.max_faculty_pages.toNat * cfg.max_faculty_per_page.toNat := by
  cases hs : search_college_website env name with
  | none => simp [run_workflow, hs]
  | some website =>
    simp only [run_workflow, hs]
    refine le_trans (length_flatMap_le _ _ cfg.max_faculty_per_page.toNat ?_)
      (Nat.mul_le_mul_right _ (length_pyTake_le _ hp _))
    intro page
    dsimp only
    split
    · rw [List.length_map]
      exact length_pyTake_le _ hr _
    · exact length_pyTake_le _ hr _

theorem run_workflow_budget_witness :
    (0 : Int) ≤ ({} : ScrapeConfig).max_faculty_pages ∧
    (0 : Int) ≤ ({} : ScrapeConfig).max_faculty_per_page ∧
    (run_workflow envSite {} "X College").faculty_members.length ≤
      ({} : ScrapeConfig).max_faculty_pages.toNat *
        ({} : ScrapeConfig).max_faculty_per_page.toNat :=
  ⟨by decide, by decide,
    run_workflow_budget envSite {} "X College" (by decide) (by decide)⟩

/-- Claim C10: the error tag is present exactly when website resolution
fails (and then it is `"website_not_found"`); once a website is resolved
it is echoed in the result and no later failure produces an error tag,
only empty fields. -/
theorem run_workflow_error_tag (env : Env) (cfg : ScrapeConfig) (name : String) :
    ((run_workflow env cfg name).meta_error ≠ none ↔
      search_college_website env name = none) ∧
    ((run_workflow env cfg name).meta_error = none ∨
      (run_workflow env cfg name).meta_error = some "website_not_found") ∧
    (∀ w, search_college_website env name = some w →
      (run_workflow env cfg name).college_website = some w ∧
        (run_workflow env cfg name).meta_error = none) ∧
    (∀ w, search_college_website env name = some w → env.homepage w = none →
      (run_workflow env cfg name).contact_emails = [] ∧
        (run_workflow env cfg name).contact_phones = [] ∧
        (run_workflow env cfg name).faculty_members = [] ∧
        (run_workflow env cfg name).meta_error = none) := by
  cases hs : search_college_website env name with
  | none =>
    refine ⟨by simp [run_workflow, hs], by simp [run_workflow, hs], ?_, ?_⟩
    · intro w hw
      exact absurd hw (by simp)
    · intro w hw
      exact absurd hw (by simp)
  | some website =>
    refine ⟨by simp [run_workflow, hs], by simp [run_workflow, hs], ?_, ?_⟩
    · intro w hw
      obtain rfl := Option.some.inj hw
      simp [run_workflow, hs]
    · intro w hw hhome
      obtain rfl := Option.some.inj hw
      simp [run_workflow, hs, scrape_college_info, hhome, pyTake_nil]

theorem run_workflow_error_tag_witness :
    (run_workflow envSiteDown {} "X College").college_website = some "https://x.edu" ∧
    (run_workflow envSiteDown {} "X College").meta_error = none ∧
    (run_workflow envSiteDown {} "X College").contact_emails = [] ∧
    (run_workflow envSiteDown {} "X College").contact_phones = [] ∧
    (run_workflow envSiteDown {} "X College").faculty_members = [] := by
  have h3 := (run_workflow_error_tag envSiteDown {} "X College").2.2.1
    "https://x.edu" (by decide)
  have h4 := (run_workflow_error_tag envSiteDown {} "X College").2.2.2
    "https://x.edu" (by decide) rfl
  exact ⟨h3.1, h3.2, h4.1, h4.2.1, h4.2.2.1⟩

/-! ### Claims about the extractors -/

/-- Claim C7: `extract_emails` always returns a list that is sorted in
code-point lexicographic order (`pyLe`, Python's string order) and free of
duplicates, and a second run on the same input returns the same result. -/
theorem extract_emails_sorted_nodup_idem (text : String) :
    List.Sorted pyLe (extract_emails text) ∧
    (extract_emails text).Nodup ∧
    extract_emails text = extract_emails text :=
  ⟨pySortedSet_sorted _, pySortedSet_nodup _, rfl⟩

/-- Claim C4, counterexample: the deduplication of `extract_emails` is
`set`-based and case-sensitive, so two spellings of one address differing
only in case are both returned, refuting case-insensitive deduplication. -/
theorem extract_emails_ci_dedup_cex :
    extract_emails "A@x.edu a@x.edu" = ["A@x.edu", "a@x.edu"] ∧
    "A@x.edu" ≠ "a@x.edu" ∧ pyLower "A@x.edu" = pyLower "a@x.edu" := by
  decide

/-- Claim C4 (amended): the emails returned by `extract_emails` are
deduplicated case-sensitively — no two entries are equal as exact strings
— and every kept entry is one of the raw regex matches, its original case
preserved. -/
theorem extract_emails_case_sensitive_dedup (text : String) :
    (extract_emails text).Nodup ∧
    ∀ e ∈ extract_emails text, e ∈ reFindAll emailRegex text :=
  ⟨pySortedSet_nodup _, fun _ he => mem_pySortedSet.mp he⟩

theorem extract_emails_case_sensitive_dedup_witness :
    (extract_emails "A@x.edu a@x.edu").Nodup ∧
    "A@x.edu" ∈ reFindAll emailRegex "A@x.edu a@x.edu" :=
  ⟨(extract_emails_case_sensitive_dedup "A@x.edu a@x.edu").1,
    (extract_emails_case_sensitive_dedup "A@x.edu a@x.edu").2 "A@x.edu" (by decide)⟩

/-- Claim C5: any string matched by one or more of the three phone
patterns (after stripping, when nonempty) occurs exactly once in the list
`extract_phones` returns; in particular a number matched by two patterns
is not duplicated. -/
theorem extract_phones_count_one (text s : String)
    (h : s ∈ reFindAll phoneRegex1 text ∨ s ∈ reFindAll phoneRegex2 text ∨
      s ∈ reFindAll phoneRegex3 text)
    (hs : pyStrip s ≠ "") :
    (extract_phones text).count (pyStrip s) = 1 := by
  have hmem : pyStrip s ∈ extract_phones text := by
    simp only [extract_phones]
    apply mem_pySortedSet.mpr
    apply List.mem_filter.mpr
    refine ⟨List.mem_map_of_mem _ ?_, by simpa using hs⟩
    rcases h with h | h | h
    · exact List.mem_append.mpr (Or.inl (List.mem_append.mpr (Or.inl h)))
    · exact List.mem_append.mpr (Or.inl (List.mem_append.mpr (Or.inr h)))
    · exact List.mem_append.mpr (Or.inr h)
  have hnd : (extract_phones text).Nodup := by
    simp only [extract_phones]
    exact pySortedSet_nodup _
  exact List.count_eq_one_of_mem hnd hmem

theorem extract_phones_count_one_witness :
    (extract_phones "+91-9876543210").count (pyStrip "+91-9876543210") = 1 :=
  extract_phones_count_one "+91-9876543210" "+91-9876543210"
    (Or.inl (by decide)) (by decide)

/-! ### Claims about `scrape_faculty_page` -/

/-- Claim C2: the deduplicated record list of a personnel page contains no
record with an empty email list; each returned record is exactly the first
record (over both strategies in concatenation order) bearing its sorted
comma-joined email key, and every nonempty email key that occurs among the
candidates is represented. -/
theorem scrape_faculty_page_dedup (env : Env) (url : String) :
    (∀ r ∈ scrape_faculty_page env url, r.emails ≠ []) ∧
    (∀ pg, env.facultyPage url = some pg →
      ∀ r ∈ scrape_faculty_page env url,
        (facultyCandidates url pg).find? (fun x => recKey x == recKey r) = some r) ∧
    (∀ pg, env.facultyPage url = some pg →
      ∀ c ∈ facultyCandidates url pg, recKey c ≠ "" →
        ∃ r ∈ scrape_faculty_page env url, recKey r = recKey c) := by
  refine ⟨?_, ?_, ?_⟩
  · intro r hr
    unfold scrape_faculty_page at hr
    cases hpg : env.facultyPage url with
    | none => rw [hpg] at hr; simp at hr
    | some pg =>
      rw [hpg] at hr
      exact (facultyCandidates_spec (dedupGo_subset _ _ _ hr)).1
  · intro pg hpg r hr
    unfold scrape_faculty_page at hr
    rw [hpg] at hr
    exact (dedupGo_first _ _ _ hr).2.2
  · intro pg hpg c hc hck
    unfold scrape_faculty_page
    rw [hpg]
    exact dedupGo_complete _ _ _ hc hck (by simp)

theorem scrape_faculty_page_dedup_witness :
    recA.emails ≠ [] ∧
    (facultyCandidates "https://x.edu/faculty" pgA).find?
      (fun x => recKey x == recKey recA) = some recA :=
  ⟨(scrape_faculty_page_dedup envSite "https://x.edu/faculty").1 recA (by decide),
    (scrape_faculty_page_dedup envSite "https://x.edu/faculty").2.1 pgA rfl
      recA (by decide)⟩

/-! ### Claims about the strategy tags and the redirect unwrapper -/

/-- Claim C6, counterexample: the profile-block strategy tags its records
`"section"` and the tabular strategy tags its records `"table"`; neither
tag equals the spec's `"profile-block"` / `"tabular"` values. -/
theorem faculty_source_tag_cex :
    (sectionRecords "https://x.edu/faculty" pgA).map PRecord.source = ["section"] ∧
    (tableRecords "https://x.edu/faculty" pgA).map PRecord.source = ["table"] ∧
    "section" ≠ "profile-block" ∧ "table" ≠ "tabular" := by
  decide

/-- Claim C6 (amended): every record emitted by the tabular strategy
carries `source = "table"`, every record emitted by the profile-block
strategy carries `source = "section"`, and these are the only two values
of the `source` field in any extractor output. -/
theorem faculty_source_tags (env : Env) (url : String) (pg : FacultyPage) :
    (∀ r ∈ tableRecords url pg, r.source = "table") ∧
    (∀ r ∈ sectionRecords url pg, r.source = "section") ∧
    (∀ r ∈ scrape_faculty_page env url, r.source = "table" ∨ r.source = "section") := by
  refine ⟨?_, ?_, ?_⟩
  · intro r hr
    simp only [tableRecords, List.mem_flatMap] at hr
    obtain ⟨t, _, hmem⟩ := hr
    obtain ⟨row, _, heq⟩ := List.mem_filterMap.mp hmem
    exact (rowRecord_spec heq).2
  · intro r hr
    simp only [sectionRecords] at hr
    obtain ⟨s, _, heq⟩ := List.mem_filterMap.mp hr
    exact (sectionRecord_spec heq).2
  · intro r hr
    unfold scrape_faculty_page at hr
    cases hpg : env.facultyPage url with
    | none => rw [hpg] at hr; simp at hr
    | some pg2 =>
      rw [hpg] at hr
      exact (facultyCandidates_spec (dedupGo_subset _ _ _ hr)).2

theorem faculty_source_tags_witness :
    recB ∈ sectionRecords "https://x.edu/faculty" pgA ∧ recB.source = "section" :=
  ⟨by decide,
    (faculty_source_tags envSite "https://x.edu/faculty" pgA).2.1 recB (by decide)⟩

/-- Modelled from the spec's words: the href's host "is the search
engine's domain", read as the domain itself or one of its subdomains. -/
def specSearchEngineHost (netloc : String) : Bool :=
  netloc == "duckduckgo.com" || strEnds netloc ".duckduckgo.com"

/-- Claim C3, counterexample: the code's host test is
`netloc.endswith("duckduckgo.com")`, which also accepts the unrelated
registrable domain `evilduckduckgo.com`; for such an href the unwrapper
does not return the href unchanged, refuting "returns the href unchanged
otherwise" under the spec's "host is the search engine's domain". -/
theorem unwrap_spec_host_cex :
    unwrap_duckduckgo_redirect
        "https://evilduckduckgo.com/l/?uddg=https%3A%2F%2Fexample.edu" =
      "https://example.edu" ∧
    "https://example.edu" ≠
      "https://evilduckduckgo.com/l/?uddg=https%3A%2F%2Fexample.edu" ∧
    (pyUrlparse "https://evilduckduckgo.com/l/?uddg=https%3A%2F%2Fexample.edu").map
        UrlParts.netloc = some "evilduckduckgo.com" ∧
    specSearchEngineHost "evilduckduckgo.com" = false := by
  decide

/-- Claim C3 (amended): `unwrap` is total; it returns the decoded first
`uddg` value exactly when the parsed netloc ends with `duckduckgo.com`
(subdomains and unrelated hosts with that suffix included) and the path
starts with `/l/` and a `uddg` value is present, and returns the href
unchanged in every other case, including when `urlparse` raises; in
particular the spec's example decodes to `https://example.edu`. -/
theorem unwrap_characterization (href : String) :
    (pyUrlparse href = none → unwrap_duckduckgo_redirect href = href) ∧
    (∀ u, pyUrlparse href = some u →
      (strEnds u.netloc "duckduckgo.com" && strStarts u.path "/l/") = false →
      unwrap_duckduckgo_redirect href = href) ∧
    (∀ u, pyUrlparse href = some u →
      (strEnds u.netloc "duckduckgo.com" && strStarts u.path "/l/") = true →
      qsFirst (parseQsl u.query) "uddg" = none →
      unwrap_duckduckgo_redirect href = href) ∧
    (∀ u v, pyUrlparse href = some u →
      (strEnds u.netloc "duckduckgo.com" && strStarts u.path "/l/") = true →
      qsFirst (parseQsl u.query) "uddg" = some v →
      unwrap_duckduckgo_redirect href = v) ∧
    unwrap_duckduckgo_redirect
        "https://duckduckgo.com/l/?uddg=https%3A%2F%2Fexample.edu" =
      "https://example.edu" := by
  refine ⟨?_, ?_, ?_, ?_, by decide⟩
  · intro hp
    simp [unwrap_duckduckgo_redirect, hp]
  · intro u hp hcond
    simp [unwrap_duckduckgo_redirect, hp, hcond]
  · intro u hp hcond hq
    simp [unwrap_duckduckgo_redirect, hp, hcond, hq]
  · intro u v hp hcond hq
    simp [unwrap_duckduckgo_redirect, hp, hcond, hq]

theorem unwrap_characterization_witness :
    unwrap_duckduckgo_redirect
        "https://duckduckgo.com/l/?uddg=https%3A%2F%2Fexample.edu" =
      "https://example.edu" :=
  (unwrap_characterization
      "https://duckduckgo.com/l/?uddg=https%3A%2F%2Fexample.edu").2.2.2.1
    { scheme := "https", netloc := "duckduckgo.com", path := "/l/",
      query := "uddg=https%3A%2F%2Fexample.edu", fragment := "" }
    "https://example.edu" (by decide) (by decide) (by decide)

end Scraper
